import Mathlib

/-
  Verification of the checkout and inventory-reservation core of an
  e-commerce backend.

  The development shallowly embeds two implementation layers of the
  repository:

  * `ECom.Routes` — the Flask route layer (src/routes/cart.py,
    src/routes/orders.py), which runs raw SQL against the tables
    `product_variants`, `inventory`, `carts`, `cart_items`, `orders`,
    `order_items`.  The database is modelled as the structure `Routes.DB`;
    each endpoint is a function from the database (plus request data) to
    an `Except` of an error or the updated database.  A transaction that
    aborts rolls back every statement, so an erroring endpoint returns no
    state; the `...Tx` / `...State` wrappers make the rolled-back state
    (the original one) explicit.

  * `ECom.App` — the service/repository layer (src/app/services/*.py,
    src/app/repositories/*.py) operating on the same tables, modelled by
    `App.AppDB`.

  Machine integers of the store are modelled as `Int`; quantities arriving
  through the HTTP schemas are integers the schemas bound to 1..99 (adds)
  or 0..99 (updates).  SQL NULL handling (`COALESCE(i.available,0)`) is
  modelled with `Option.getD`.
-/

namespace ECom

/-- Decidable equality of results, used to evaluate the theorems on the
concrete sample stores. -/
instance {ε α : Type} [DecidableEq ε] [DecidableEq α] :
    DecidableEq (Except ε α) := fun x y =>
  match x, y with
  | .error a, .error b =>
      if h : a = b then isTrue (by rw [h])
      else isFalse (by intro hc; cases hc; exact h rfl)
  | .ok a, .ok b =>
      if h : a = b then isTrue (by rw [h])
      else isFalse (by intro hc; cases hc; exact h rfl)
  | .error _, .ok _ => isFalse (by intro hc; cases hc)
  | .ok _, .error _ => isFalse (by intro hc; cases hc)

/-- One row of the `inventory` table: the two stock counters of a variant. -/
structure Inventory where
  available : Int
  reserved : Int
deriving Repr, DecidableEq

namespace Routes

/-- One row of `cart_items`: a cart line of some user. -/
structure CartLine where
  id : Nat
  variantId : Nat
  quantity : Int
deriving Repr, DecidableEq

/-- One row of the checkout SELECT: a cart line joined with its variant
(price) and its inventory row, as read under the FOR UPDATE lock. -/
structure CartRow where
  variantId : Nat
  quantity : Int
  price_cents : Int
  available : Int
  reserved : Int
deriving Repr, DecidableEq

/-- One row of `order_items`. -/
structure OrderLine where
  variantId : Nat
  unit_price_cents : Int
  quantity : Int
  subtotal_cents : Int
deriving Repr, DecidableEq

/-- One row of `orders` together with its `order_items`. -/
structure Order where
  userId : Nat
  total_cents : Int
  currency : String
  lines : List OrderLine
deriving Repr, DecidableEq

/-- The relational store seen by the route layer.  `variantPrice v` is
`some p` iff the variant row `v` exists with `price_cents = p`; `invRow`
is the `inventory` table; `carts u` is the list of cart lines of user `u`
(the cart row itself is created lazily and never deleted, so it is left
implicit); `orders` is the order history; `nextId` feeds fresh
`cart_items` ids. -/
structure DB where
  variantPrice : Nat → Option Int
  invRow : Nat → Option Inventory
  carts : Nat → List CartLine
  orders : List Order
  nextId : Nat

/-- Errors of the route layer, with the HTTP classes used by the code. -/
inductive RouteErr where
  | badRequest
  | notFound
  | insufficientStock
deriving Repr, DecidableEq

/-- Checkout errors; both abort the transaction with HTTP 400. -/
inductive CheckoutErr where
  | emptyCart
  | insufficientStock (variantId : Nat)
deriving Repr, DecidableEq

/-- HTTP status attached to each checkout error by the handler
(`abort(400, ...)` in both cases). -/
def CheckoutErr.status : CheckoutErr → Nat
  | .emptyCart => 400
  | .insufficientStock _ => 400

/-- Join of one cart line with its variant and inventory rows; none when
either row is missing (the inner joins of the checkout query drop such
lines). -/
def rowOf (db : DB) (l : CartLine) : Option CartRow :=
  match db.variantPrice l.variantId, db.invRow l.variantId with
  | some p, some i => some ⟨l.variantId, l.quantity, p, i.available, i.reserved⟩
  | _, _ => none

/-- Step 1 of checkout: the locked SELECT joining each cart line of the
user with its variant and inventory rows.  The ORDER BY of the query only
fixes row order and is immaterial to the properties proved here. -/
def checkoutRows (db : DB) (uid : Nat) : List CartRow :=
  (db.carts uid).filterMap (rowOf db)

/-- Validation predicate of step 2: a row fails when its quantity exceeds
net available stock as read under the lock. -/
def insufficient (r : CartRow) : Bool := r.available - r.reserved < r.quantity

/-- Step 3 for a single line: UPDATE inventory SET available -= qty,
reserved += qty WHERE variant_id = vid. -/
def reserveOne (db : DB) (vid : Nat) (qty : Int) : DB :=
  { db with invRow := fun v =>
      if v = vid then
        (db.invRow v).map fun i => ⟨i.available - qty, i.reserved + qty⟩
      else db.invRow v }

/-- Step 3: the reservation UPDATE applied to every locked row. -/
def applyReserves (db : DB) (rows : List CartRow) : DB :=
  rows.foldl (fun d r => reserveOne d r.variantId r.quantity) db

/-- Step 5 data: the order line materialized from a locked row; the unit
price is the variant price read at checkout time. -/
def orderLineOf (r : CartRow) : OrderLine :=
  ⟨r.variantId, r.price_cents, r.quantity, r.quantity * r.price_cents⟩

/-- Steps 4 and 5: the created order; the total sums quantity times the
variant price read at checkout time. -/
def checkoutOrder (db : DB) (uid : Nat) (currency : String) : Order :=
  ⟨uid,
   ((checkoutRows db uid).map fun r => r.quantity * r.price_cents).sum,
   currency,
   (checkoutRows db uid).map orderLineOf⟩

/-- Steps 3 to 6 on the store: reserve every line, insert the order and
its lines, delete the cart lines of the user. -/
def checkoutCommit (db : DB) (uid : Nat) (currency : String) : DB × Order :=
  let db1 := applyReserves db (checkoutRows db uid)
  ({ db1 with
      orders := db1.orders ++ [checkoutOrder db uid currency],
      carts := fun u => if u = uid then [] else db1.carts u },
   checkoutOrder db uid currency)

/-- The checkout handler body: load and lock, validate emptiness, validate
stock line by line, then commit the mutations.  An error aborts the
transaction before COMMIT, so no state is returned on the error path. -/
def checkout (db : DB) (uid : Nat) (currency : String) :
    Except CheckoutErr (DB × Order) :=
  let rows := checkoutRows db uid
  if rows.isEmpty then .error .emptyCart
  else
    match rows.find? insufficient with
    | some r => .error (.insufficientStock r.variantId)
    | none => .ok (checkoutCommit db uid currency)

/-- Outcome of one checkout request: the store after the transaction
(committed or rolled back) and the response. -/
structure CheckoutOutcome where
  db : DB
  result : Except CheckoutErr Order

/-- Transactional wrapper: on any error the with-block rolls back, leaving
the store exactly as it was. -/
def checkoutTx (db : DB) (uid : Nat) (currency : String) : CheckoutOutcome :=
  match checkout db uid currency with
  | .error e => ⟨db, .error e⟩
  | .ok (db2, o) => ⟨db2, .ok o⟩

/-- Quantity already in the cart of `uid` for variant `vid` (0 when the
variant has no line), as read by the add-item endpoint. -/
def existingQty (db : DB) (uid vid : Nat) : Int :=
  match (db.carts uid).find? (fun l => l.variantId == vid) with
  | some l => l.quantity
  | none => 0

/-- Net available stock of a variant, with missing inventory rows read as
zero by COALESCE. -/
def netAvailable (db : DB) (vid : Nat) : Int :=
  ((db.invRow vid).getD ⟨0, 0⟩).available - ((db.invRow vid).getD ⟨0, 0⟩).reserved

/-- The INSERT ... ON CONFLICT (cart_id, variant_id) DO UPDATE of the
add-item endpoint: merge into the existing line for the variant or append
a fresh line. -/
def upsertLine (lines : List CartLine) (vid : Nat) (q : Int) (freshId : Nat) :
    List CartLine :=
  match lines.find? (fun l => l.variantId == vid) with
  | some _ =>
      lines.map fun l =>
        if l.variantId == vid then { l with quantity := l.quantity + q } else l
  | none => lines ++ [⟨freshId, vid, q⟩]

/-- The add-item endpoint (POST /carts/me/items): schema bounds the
quantity to 1..99; the variant must exist; the merged total must not
exceed 99 nor the net available stock; on success the line is upserted. -/
def add_cart_item (db : DB) (uid vid : Nat) (q : Int) : Except RouteErr DB :=
  if q < 1 ∨ 99 < q then .error .badRequest
  else
    match db.variantPrice vid with
    | none => .error .notFound
    | some _ =>
        if 99 < q + existingQty db uid vid then .error .badRequest
        else if netAvailable db vid < q + existingQty db uid vid then
          .error .insufficientStock
        else .ok { db with
          carts := fun u =>
            if u = uid then upsertLine (db.carts u) vid q db.nextId
            else db.carts u,
          nextId := db.nextId + 1 }

/-- Store state after an add-item request (errors roll back). -/
def addItemState (db : DB) (uid vid : Nat) (q : Int) : DB :=
  match add_cart_item db uid vid q with
  | .ok db2 => db2
  | .error _ => db

/-- The update-item endpoint (PATCH /carts/me/items/id): schema bounds the
quantity to 0..99; the item must belong to the user; quantity 0 deletes
the line; otherwise the new quantity is checked against net available
stock and stored. -/
def update_cart_item (db : DB) (uid cid : Nat) (q : Int) : Except RouteErr DB :=
  if q < 0 ∨ 99 < q then .error .badRequest
  else
    match (db.carts uid).find? (fun l => l.id == cid) with
    | none => .error .notFound
    | some item =>
        if q = 0 then
          .ok { db with carts := fun u =>
            (if u = uid then (db.carts u).filter (fun l => l.id != cid)
             else db.carts u) }
        else if netAvailable db item.variantId < q then .error .insufficientStock
        else .ok { db with carts := fun u =>
          (if u = uid then
            (db.carts u).map (fun l =>
              if l.id == cid then { l with quantity := q } else l)
           else db.carts u) }

/-- Store state after an update-item request (errors roll back). -/
def updateItemState (db : DB) (uid cid : Nat) (q : Int) : DB :=
  match update_cart_item db uid cid q with
  | .ok db2 => db2
  | .error _ => db

/-- The delete-item endpoint (DELETE /carts/me/items/id): delete the line
owned by the user, 404 when there is none. -/
def delete_cart_item (db : DB) (uid cid : Nat) : Except RouteErr DB :=
  if (db.carts uid).any (fun l => l.id == cid) then
    .ok { db with carts := fun u =>
      if u = uid then (db.carts u).filter (fun l => l.id != cid)
      else db.carts u }
  else .error .notFound

/-- Store state after a delete-item request (errors roll back). -/
def deleteItemState (db : DB) (uid cid : Nat) : DB :=
  match delete_cart_item db uid cid with
  | .ok db2 => db2
  | .error _ => db

end Routes

namespace App

/-- A product variant joined with its inventory row as the repository
reads it (COALESCE turns a missing inventory row into zeros). -/
structure ProductVariant where
  price_cents : Int
  available : Int
  reserved : Int
deriving Repr, DecidableEq

/-- One cart line as the service layer sees it. -/
structure CartLine where
  cartItemId : Nat
  variantId : Nat
  quantity : Int
deriving Repr, DecidableEq

/-- The relational store seen by the service/repository layer.  Each
repository command commits on its own, so the functions below thread the
store explicitly; the erroring paths that no theorem here exercises are
modelled as plain errors. -/
structure AppDB where
  variantPrice : Nat → Option Int
  invRow : Nat → Option Inventory
  carts : Nat → List CartLine
  nextId : Nat

/-- Error taxonomy of the service layer (ValidationError, NotFoundError,
BusinessLogicError, ConflictError). -/
inductive SvcErr where
  | validation
  | notFound
  | businessLogic
  | conflict
deriving Repr, DecidableEq

/-- ProductRepository.get_variant_by_id: the variant row left-joined with
inventory, none when the variant does not exist. -/
def getVariantRepo (db : AppDB) (vid : Nat) : Option ProductVariant :=
  (db.variantPrice vid).map fun p =>
    let i := (db.invRow vid).getD ⟨0, 0⟩
    ⟨p, i.available, i.reserved⟩

/-- ProductVariant.available_quantity: max(0, available - reserved). -/
def available_quantity (v : ProductVariant) : Int :=
  max 0 (v.available - v.reserved)

/-- ProductService._get_minimum_stock_level: min(max(1, int(available *
0.05)), 5).  The float product truncated toward zero equals available / 20
throughout the nonnegative range the store holds. -/
def min_stock_level (v : ProductVariant) : Int :=
  min (max 1 (Int.ofNat (v.available.toNat / 20))) 5

/-- ProductService.check_variant_availability: rejects non-positive
quantities, answers false for a missing variant, and otherwise compares
the requested quantity against the net available stock minus the minimum
stock level.  The operation only reads the store. -/
def check_variant_availability (db : AppDB) (vid : Nat) (q : Int) :
    Except SvcErr Bool :=
  if q ≤ 0 then .error .validation
  else .ok (match getVariantRepo db vid with
    | none => false
    | some v => decide (q ≤ max 0 (available_quantity v - min_stock_level v)))

/-- Write one inventory row (helper for the UPDATE/UPSERT commands). -/
def setInv (db : AppDB) (vid : Nat) (i : Inventory) : AppDB :=
  { db with invRow := fun v => if v = vid then some i else db.invRow v }

/-- ProductRepository.reserve_inventory: conditional UPDATE reserving only
when available - reserved is at least the quantity; the boolean reports
whether a row was updated. -/
def repo_reserve_inventory (db : AppDB) (vid : Nat) (q : Int) : AppDB × Bool :=
  match db.invRow vid with
  | none => (db, false)
  | some i =>
      if q ≤ i.available - i.reserved then
        (setInv db vid ⟨i.available, i.reserved + q⟩, true)
      else (db, false)

/-- ProductRepository.release_inventory_reservation: UPDATE SET reserved =
GREATEST(0, reserved - quantity); updates the row whenever it exists. -/
def repo_release_inventory (db : AppDB) (vid : Nat) (q : Int) : AppDB × Bool :=
  match db.invRow vid with
  | none => (db, false)
  | some i => (setInv db vid ⟨i.available, max 0 (i.reserved - q)⟩, true)

/-- ProductRepository.update_inventory: rejects negative counters, then
upserts the row with exactly the given counters. -/
def repo_update_inventory (db : AppDB) (vid : Nat) (available reserved : Int) :
    Except SvcErr (AppDB × Bool) :=
  if available < 0 ∨ reserved < 0 then .error .validation
  else .ok (setInv db vid ⟨available, reserved⟩, true)

/-- ProductService.reserve_inventory: positive quantity at most 99,
availability check first, then the conditional repository UPDATE; a
failed conditional update surfaces as an error. -/
def svc_reserve_inventory (db : AppDB) (vid : Nat) (q : Int) :
    Except SvcErr (AppDB × Bool) :=
  if q ≤ 0 then .error .validation
  else if 99 < q then .error .validation
  else
    match check_variant_availability db vid q with
    | .error e => .error e
    | .ok false => .error .businessLogic
    | .ok true =>
        match repo_reserve_inventory db vid q with
        | (db2, true) => .ok (db2, true)
        | (_, false) => .error .businessLogic

/-- ProductService.release_inventory_reservation: positive quantity, then
the clamping repository UPDATE. -/
def svc_release_inventory (db : AppDB) (vid : Nat) (q : Int) :
    Except SvcErr (AppDB × Bool) :=
  if q ≤ 0 then .error .validation
  else .ok (repo_release_inventory db vid q)

/-- ProductService.update_inventory: bounds the available count by 10000,
requires reserved at most available and an existing variant, then runs
the repository upsert. -/
def svc_update_inventory (db : AppDB) (vid : Nat) (available reserved : Int) :
    Except SvcErr (AppDB × Bool) :=
  if 10000 < available then .error .validation
  else if available < reserved then .error .validation
  else
    match getVariantRepo db vid with
    | none => .error .notFound
    | some _ => repo_update_inventory db vid available reserved

/-- CartRepository.add_item_to_cart: merge the quantity into the existing
line for the variant, or insert a fresh line; returns the written line. -/
def repo_add_item (db : AppDB) (uid vid : Nat) (q : Int) : AppDB × CartLine :=
  match (db.carts uid).find? (fun l => l.variantId == vid) with
  | some e =>
      ({ db with carts := fun u =>
          (if u = uid then
            (db.carts u).map (fun l =>
              if l.cartItemId == e.cartItemId then
                { l with quantity := e.quantity + q }
              else l)
           else db.carts u) },
       { e with quantity := e.quantity + q })
  | none =>
      ({ db with
          carts := fun u =>
            (if u = uid then db.carts u ++ [⟨db.nextId, vid, q⟩]
             else db.carts u),
          nextId := db.nextId + 1 },
       ⟨db.nextId, vid, q⟩)

/-- CartRepository.update_cart_item_quantity restricted to the positive
case the service reaches (ownership was already checked). -/
def repo_update_quantity (db : AppDB) (uid cid : Nat) (q : Int) : AppDB :=
  { db with carts := fun u =>
      (if u = uid then
        (db.carts u).map (fun l =>
          if l.cartItemId == cid then { l with quantity := q } else l)
       else db.carts u) }

/-- CartRepository.remove_cart_item: delete the owned line. -/
def repo_remove_item (db : AppDB) (uid cid : Nat) : AppDB :=
  { db with carts := fun u =>
      (if u = uid then (db.carts u).filter (fun l => l.cartItemId != cid)
       else db.carts u) }

/-- CartRepository.clear_cart: DELETE all lines of the cart of the user;
the boolean is affected_rows > 0, false when the cart was already empty. -/
def repo_clear_cart (db : AppDB) (uid : Nat) : AppDB × Bool :=
  ({ db with carts := fun u => (if u = uid then [] else db.carts u) },
   !(db.carts uid).isEmpty)

/-- CartService.add_item_to_cart: variant lookup (NotFound becomes a
validation error, an unsellable price a business error), availability
check on the requested quantity, the 50-distinct-lines cart limit for new
lines, the 99 cap on the merged line quantity, then the repository
upsert. -/
def svc_add_item_to_cart (db : AppDB) (uid vid : Nat) (q : Int) :
    Except SvcErr (AppDB × CartLine) :=
  match getVariantRepo db vid with
  | none => .error .validation
  | some v =>
      if v.price_cents ≤ 0 then .error .businessLogic
      else
        match check_variant_availability db vid q with
        | .error e => .error e
        | .ok false => .error .businessLogic
        | .ok true =>
            if 50 ≤ (db.carts uid).length ∧
                (db.carts uid).find? (fun l => l.variantId == vid) = none then
              .error .businessLogic
            else
              if 99 < q + (match (db.carts uid).find?
                    (fun l => l.variantId == vid) with
                  | some e => e.quantity
                  | none => 0) then
                .error .businessLogic
              else .ok (repo_add_item db uid vid q)

/-- CartService.remove_cart_item: ownership check, deletion, then release
of the reserved inventory for the removed quantity. -/
def svc_remove_cart_item (db : AppDB) (uid cid : Nat) :
    Except SvcErr (AppDB × Option CartLine) :=
  match (db.carts uid).find? (fun l => l.cartItemId == cid) with
  | none => .error .notFound
  | some item =>
      let db1 := repo_remove_item db uid cid
      match svc_release_inventory db1 item.variantId item.quantity with
      | .ok (db2, _) => .ok (db2, some item)
      | .error _ => .error .businessLogic

/-- CartService.update_cart_item: ownership check, quantity 0 delegates to
removal, cap 99, availability check on the new quantity, the quantity
UPDATE, and then reservation of the increase or release of the decrease. -/
def svc_update_cart_item (db : AppDB) (uid cid : Nat) (q : Int) :
    Except SvcErr (AppDB × Option CartLine) :=
  match (db.carts uid).find? (fun l => l.cartItemId == cid) with
  | none => .error .notFound
  | some item =>
      if q = 0 then svc_remove_cart_item db uid cid
      else if 99 < q then .error .validation
      else
        match check_variant_availability db item.variantId q with
        | .error e => .error e
        | .ok false => .error .businessLogic
        | .ok true =>
            let db1 := repo_update_quantity db uid cid q
            let diff := q - item.quantity
            if 0 < diff then
              match svc_reserve_inventory db1 item.variantId diff with
              | .ok (db2, _) => .ok (db2, some { item with quantity := q })
              | .error _ => .error .businessLogic
            else if diff < 0 then
              match svc_release_inventory db1 item.variantId (-diff) with
              | .ok (db2, _) => .ok (db2, some { item with quantity := q })
              | .error _ => .error .businessLogic
            else .ok (db1, some { item with quantity := q })

/-- Release every reservation held by the given cart lines, as the loop in
CartService.clear_cart does. -/
def releaseAll (db : AppDB) : List CartLine → Except SvcErr AppDB
  | [] => .ok db
  | l :: ls =>
      match svc_release_inventory db l.variantId l.quantity with
      | .ok (db2, _) => releaseAll db2 ls
      | .error _ => .error .businessLogic

/-- CartService.clear_cart: release all reservations of the cart, then
the repository DELETE; the returned boolean is the affected_rows > 0
signal of the repository. -/
def svc_clear_cart (db : AppDB) (uid : Nat) : Except SvcErr (AppDB × Bool) :=
  match releaseAll db (db.carts uid) with
  | .error e => .error e
  | .ok db1 =>
      let r := repo_clear_cart db1 uid
      .ok r

/-- Store state after a service add-item call (errors leave the store as
it was, no repository write having happened yet on those paths). -/
def svcAddState (db : AppDB) (uid vid : Nat) (q : Int) : AppDB :=
  match svc_add_item_to_cart db uid vid q with
  | .ok (db2, _) => db2
  | .error _ => db

/-- Store state after a service update-item call on its successful path. -/
def svcUpdateState (db : AppDB) (uid cid : Nat) (q : Int) : AppDB :=
  match svc_update_cart_item db uid cid q with
  | .ok (db2, _) => db2
  | .error _ => db

/-- Store state after a service clear-cart call. -/
def svcClearState (db : AppDB) (uid : Nat) : AppDB :=
  match svc_clear_cart db uid with
  | .ok (db2, _) => db2
  | .error _ => db

/-- The boolean result of a service clear-cart call, none on error. -/
def svcClearResult (db : AppDB) (uid : Nat) : Option Bool :=
  match svc_clear_cart db uid with
  | .ok (_, b) => some b
  | .error _ => none

end App

/-- The invariant of claim C4: every inventory row carries non-negative
counters. -/
def InvNonneg (f : Nat → Option Inventory) : Prop :=
  ∀ v i, f v = some i → 0 ≤ i.available ∧ 0 ≤ i.reserved

/-- A small concrete route-layer store used to exercise the theorems:
two variants with stock, one user with a two-line cart. -/
def sampleDB : Routes.DB where
  variantPrice := fun v => if v = 1 then some 500 else if v = 2 then some 300 else none
  invRow := fun v => if v = 1 then some ⟨10, 0⟩ else if v = 2 then some ⟨8, 3⟩ else none
  carts := fun u => if u = 1 then [⟨10, 1, 5⟩, ⟨11, 2, 2⟩] else []
  orders := []
  nextId := 20

/-- A small concrete service-layer store: one variant, stock 10, nothing
reserved, all carts empty. -/
def sampleAppDB : App.AppDB where
  variantPrice := fun v => if v = 1 then some 100 else none
  invRow := fun v => if v = 1 then some ⟨10, 0⟩ else none
  carts := fun _ => []
  nextId := 0

/-- A concrete service-layer store whose user 3 has one cart line of
quantity 1 on variant 1 (stock 20, nothing reserved). -/
def updateAppDB : App.AppDB where
  variantPrice := fun v => if v = 1 then some 100 else none
  invRow := fun v => if v = 1 then some ⟨20, 0⟩ else none
  carts := fun u => if u = 3 then [⟨10, 1, 1⟩] else []
  nextId := 50

/-- A concrete service-layer store whose user 4 already has 50 distinct
cart lines on variants 2..51, and variant 1 in stock but not in the cart. -/
def fullCartAppDB : App.AppDB where
  variantPrice := fun v => if v ≤ 60 then some 100 else none
  invRow := fun v => if v ≤ 60 then some ⟨50, 0⟩ else none
  carts := fun u => if u = 4 then (List.range 50).map (fun n => ⟨n, n + 2, 1⟩) else []
  nextId := 100

/-- Like `fullCartAppDB` but the first of the 50 lines is on variant 1,
so an add on variant 1 merges instead of inserting. -/
def fullCartMergeAppDB : App.AppDB where
  variantPrice := fun v => if v ≤ 60 then some 100 else none
  invRow := fun v => if v ≤ 60 then some ⟨50, 0⟩ else none
  carts := fun u =>
    if u = 4 then ⟨0, 1, 1⟩ :: (List.range 49).map (fun n => ⟨n + 1, n + 3, 1⟩) else []
  nextId := 100

end ECom

namespace ECom.Routes

theorem reserveOne_carts (db : DB) (vid : Nat) (qty : Int) :
    (reserveOne db vid qty).carts = db.carts := rfl

theorem reserveOne_orders (db : DB) (vid : Nat) (qty : Int) :
    (reserveOne db vid qty).orders = db.orders := rfl

theorem reserveOne_invRow_ne (db : DB) {v vid : Nat} (qty : Int) (h : v ≠ vid) :
    (reserveOne db vid qty).invRow v = db.invRow v := by
  simp [reserveOne, h]

theorem reserveOne_invRow_self (db : DB) (vid : Nat) (qty : Int) :
    (reserveOne db vid qty).invRow vid =
      (db.invRow vid).map fun i => ⟨i.available - qty, i.reserved + qty⟩ := by
  simp [reserveOne]

theorem applyReserves_cons (db : DB) (r : CartRow) (rs : List CartRow) :
    applyReserves db (r :: rs) =
      applyReserves (reserveOne db r.variantId r.quantity) rs := rfl

theorem applyReserves_carts (db : DB) (rows : List CartRow) :
    (applyReserves db rows).carts = db.carts := by
  induction rows generalizing db with
  | nil => rfl
  | cons r rs ih => rw [applyReserves_cons, ih, reserveOne_carts]

theorem applyReserves_orders (db : DB) (rows : List CartRow) :
    (applyReserves db rows).orders = db.orders := by
  induction rows generalizing db with
  | nil => rfl
  | cons r rs ih => rw [applyReserves_cons, ih, reserveOne_orders]

theorem applyReserves_invRow_not_mem (db : DB) {rows : List CartRow} {v : Nat}
    (h : ∀ r ∈ rows, r.variantId ≠ v) :
    (applyReserves db rows).invRow v = db.invRow v := by
  induction rows generalizing db with
  | nil => rfl
  | cons r rs ih =>
    rw [applyReserves_cons,
      ih (reserveOne db r.variantId r.quantity)
        (fun s hs => h s (List.mem_cons_of_mem _ hs)),
      reserveOne_invRow_ne db r.quantity (Ne.symm (h r (List.mem_cons_self r rs)))]

theorem applyReserves_invRow_mem (db : DB) {rows : List CartRow} {r : CartRow}
    (hnd : (rows.map CartRow.variantId).Nodup) (hr : r ∈ rows) :
    (applyReserves db rows).invRow r.variantId =
      (db.invRow r.variantId).map
        fun i => ⟨i.available - r.quantity, i.reserved + r.quantity⟩ := by
  induction rows generalizing db with
  | nil => cases hr
  | cons x xs ih =>
    rw [applyReserves_cons]
    rcases List.mem_cons.mp hr with heq | hmem
    · subst heq
      have hnot : ∀ s ∈ xs, s.variantId ≠ r.variantId := by
        intro s hs hv
        exact (List.nodup_cons.mp hnd).1 (hv ▸ List.mem_map_of_mem _ hs)
      rw [applyReserves_invRow_not_mem _ hnot, reserveOne_invRow_self]
    · have hx : x.variantId ≠ r.variantId := by
        intro hv
        exact (List.nodup_cons.mp hnd).1 (hv ▸ List.mem_map_of_mem _ hmem)
      have h2 := ih (reserveOne db x.variantId x.quantity)
        (List.nodup_cons.mp hnd).2 hmem
      rw [h2, reserveOne_invRow_ne db x.quantity (Ne.symm hx)]

theorem rowOf_eq_some {db : DB} {l : CartLine} {r : CartRow} :
    rowOf db l = some r ↔
      l.variantId = r.variantId ∧ l.quantity = r.quantity ∧
      db.variantPrice l.variantId = some r.price_cents ∧
      db.invRow l.variantId = some ⟨r.available, r.reserved⟩ := by
  obtain ⟨rv, rq, rp, ra, rr⟩ := r
  unfold rowOf
  cases hp : db.variantPrice l.variantId with
  | none => simp
  | some p =>
    cases hi : db.invRow l.variantId with
    | none => simp
    | some i =>
      obtain ⟨ia, ir⟩ := i
      constructor
      · intro h
        simp only [Option.some.injEq, CartRow.mk.injEq] at h
        obtain ⟨h1, h2, h3, h4, h5⟩ := h
        subst h1 h2 h3 h4 h5
        exact ⟨rfl, rfl, rfl, rfl⟩
      · rintro ⟨h1, h2, h3, h4⟩
        simp only [Option.some.injEq, Inventory.mk.injEq] at h3 h4
        obtain ⟨h4a, h4b⟩ := h4
        subst h1 h2 h3 h4a h4b
        rfl

theorem rowOf_isSome {db : DB} {l : CartLine} :
    (rowOf db l).isSome ↔
      (db.variantPrice l.variantId).isSome ∧ (db.invRow l.variantId).isSome := by
  unfold rowOf
  cases db.variantPrice l.variantId <;> cases db.invRow l.variantId <;> simp

theorem mem_checkoutRows {db : DB} {uid : Nat} {r : CartRow} :
    r ∈ checkoutRows db uid ↔ ∃ l ∈ db.carts uid, rowOf db l = some r := by
  unfold checkoutRows
  exact List.mem_filterMap

theorem filterMap_length_of_isSome {α β : Type} {f : α → Option β} :
    ∀ L : List α, (∀ a ∈ L, (f a).isSome) → (L.filterMap f).length = L.length := by
  intro L hL
  induction L with
  | nil => rfl
  | cons x xs ih =>
    obtain ⟨b, hb⟩ := Option.isSome_iff_exists.mp (hL x (List.mem_cons_self x xs))
    rw [List.filterMap_cons, hb]
    simp [ih (fun a ha => hL a (List.mem_cons_of_mem _ ha))]

theorem checkoutRows_length {db : DB} {uid : Nat}
    (h : ∀ l ∈ db.carts uid, (rowOf db l).isSome) :
    (checkoutRows db uid).length = (db.carts uid).length := by
  unfold checkoutRows
  exact filterMap_length_of_isSome _ h

end ECom.Routes

namespace ECom.Routes

theorem checkoutRows_variantIds_sublist (db : DB) (uid : Nat) :
    ((checkoutRows db uid).map CartRow.variantId).Sublist
      ((db.carts uid).map CartLine.variantId) := by
  unfold checkoutRows
  generalize db.carts uid = L
  induction L with
  | nil => simp
  | cons x xs ih =>
    rw [List.filterMap_cons]
    cases hx : rowOf db x with
    | none => simpa using ih.cons x.variantId
    | some r =>
      have hv : x.variantId = r.variantId := (rowOf_eq_some.mp hx).1
      simp only [List.map_cons, hv]
      exact ih.cons₂ r.variantId

theorem checkoutRows_nodup {db : DB} {uid : Nat}
    (h : ((db.carts uid).map CartLine.variantId).Nodup) :
    ((checkoutRows db uid).map CartRow.variantId).Nodup :=
  (checkoutRows_variantIds_sublist db uid).nodup h

theorem checkout_eq_ok {db : DB} {uid : Nat} {currency : String}
    (h1 : checkoutRows db uid ≠ [])
    (h2 : (checkoutRows db uid).find? insufficient = none) :
    checkout db uid currency = .ok (checkoutCommit db uid currency) := by
  unfold checkout
  have hE : (checkoutRows db uid).isEmpty = false := by
    simpa [List.isEmpty_iff] using h1
  simp [hE, h2]

theorem checkout_ok_inv {db : DB} {uid : Nat} {currency : String}
    {x : DB × Order} (h : checkout db uid currency = .ok x) :
    checkoutRows db uid ≠ [] ∧
    (checkoutRows db uid).find? insufficient = none ∧
    x = checkoutCommit db uid currency := by
  unfold checkout at h
  by_cases hE : (checkoutRows db uid).isEmpty
  · simp [hE] at h
  · cases hf : (checkoutRows db uid).find? insufficient with
    | some r => simp [hE, hf] at h
    | none =>
      simp only [hE, hf, if_false, Bool.false_eq_true] at h
      refine ⟨by simpa [List.isEmpty_iff] using hE, rfl, ?_⟩
      cases h
      rfl

theorem checkout_error_iff_rows {db : DB} {uid : Nat} {currency : String} :
    (∃ e, checkout db uid currency = .error e) ↔
      (checkoutRows db uid = [] ∨ ∃ r ∈ checkoutRows db uid, insufficient r) := by
  unfold checkout
  by_cases hE : (checkoutRows db uid).isEmpty
  · simp only [hE, if_true]
    constructor
    · intro _
      exact Or.inl (by simpa [List.isEmpty_iff] using hE)
    · intro _
      exact ⟨.emptyCart, rfl⟩
  · simp only [hE, Bool.false_eq_true, if_false]
    cases hf : (checkoutRows db uid).find? insufficient with
    | some r =>
      constructor
      · intro _
        exact Or.inr ⟨r, List.mem_of_find?_eq_some hf, List.find?_some hf⟩
      · intro _
        exact ⟨.insufficientStock r.variantId, rfl⟩
    | none =>
      constructor
      · rintro ⟨e, he⟩
        cases he
      · rintro (hnil | ⟨r, hr, hbad⟩)
        · exact absurd hnil (by simpa [List.isEmpty_iff] using hE)
        · exact absurd hbad (by simpa using List.find?_eq_none.mp hf r hr)

end ECom.Routes

namespace ECom.Routes

theorem checkoutTx_result_error {db : DB} {uid : Nat} {currency : String}
    {e : CheckoutErr} :
    (checkoutTx db uid currency).result = .error e ↔
      checkout db uid currency = .error e := by
  unfold checkoutTx
  cases h : checkout db uid currency with
  | error e2 => simp
  | ok x =>
    obtain ⟨a, b⟩ := x
    simp

theorem checkoutTx_result_ok {db : DB} {uid : Nat} {currency : String}
    {o : Order} :
    (checkoutTx db uid currency).result = .ok o ↔
      ∃ db2, checkout db uid currency = .ok (db2, o) := by
  unfold checkoutTx
  cases h : checkout db uid currency with
  | error e2 => simp
  | ok x =>
    obtain ⟨a, b⟩ := x
    simp only [Except.ok.injEq, Prod.mk.injEq]
    constructor
    · intro hb
      exact ⟨a, rfl, hb⟩
    · rintro ⟨db2, h1, h2⟩
      exact h2

theorem checkoutTx_db_of_error {db : DB} {uid : Nat} {currency : String}
    {e : CheckoutErr} (h : (checkoutTx db uid currency).result = .error e) :
    (checkoutTx db uid currency).db = db := by
  unfold checkoutTx at h ⊢
  cases hc : checkout db uid currency with
  | error e2 => rfl
  | ok x =>
    obtain ⟨a, b⟩ := x
    rw [hc] at h
    cases h

end ECom.Routes

namespace ECom

open Routes

/-- C1: for every user whose cart is non-empty, whose cart references
existing variant and inventory rows (one line per variant, as the unique
index on cart_items enforces), and whose every line satisfies quantity at
most net available stock as read under the lock, checkout succeeds and
afterwards each touched variant has available decreased and reserved
increased by the line quantity, the cart of the user has zero lines, and
exactly one new order exists with one order line per pre-checkout cart
line. -/
theorem checkout_success_postconditions
    (db : DB) (uid : Nat) (currency : String)
    (hne : db.carts uid ≠ [])
    (hri : ∀ l ∈ db.carts uid,
      (db.variantPrice l.variantId).isSome ∧ (db.invRow l.variantId).isSome)
    (hnd : ((db.carts uid).map CartLine.variantId).Nodup)
    (hstock : ∀ l ∈ db.carts uid, l.quantity ≤ netAvailable db l.variantId) :
    ∃ o : Order,
      (checkoutTx db uid currency).result = .ok o ∧
      (∀ l ∈ db.carts uid, ∀ i, db.invRow l.variantId = some i →
        (checkoutTx db uid currency).db.invRow l.variantId =
          some ⟨i.available - l.quantity, i.reserved + l.quantity⟩) ∧
      (checkoutTx db uid currency).db.carts uid = [] ∧
      (checkoutTx db uid currency).db.orders = db.orders ++ [o] ∧
      o.lines.length = (db.carts uid).length := by
  have hri2 : ∀ l ∈ db.carts uid, (rowOf db l).isSome :=
    fun l hl => rowOf_isSome.mpr (hri l hl)
  have hlen := checkoutRows_length hri2
  have hrows_ne : checkoutRows db uid ≠ [] := by
    intro h0
    apply hne
    rw [h0] at hlen
    exact List.eq_nil_of_length_eq_zero hlen.symm
  have hfind : (checkoutRows db uid).find? insufficient = none := by
    apply List.find?_eq_none.mpr
    intro r hr
    obtain ⟨l, hl, hrow⟩ := mem_checkoutRows.mp hr
    obtain ⟨hv, hq, hp, hi⟩ := rowOf_eq_some.mp hrow
    have hs := hstock l hl
    rw [netAvailable, hi] at hs
    simp only [insufficient, decide_eq_true_eq, not_lt]
    simp only [Option.getD_some] at hs
    rw [← hq]
    exact hs
  have hok : checkout db uid currency = .ok (checkoutCommit db uid currency) :=
    checkout_eq_ok hrows_ne hfind
  have hTx : checkoutTx db uid currency =
      ⟨(checkoutCommit db uid currency).1, .ok (checkoutCommit db uid currency).2⟩ := by
    unfold checkoutTx
    rw [hok]
  refine ⟨checkoutOrder db uid currency, ?_, ?_, ?_, ?_, ?_⟩
  · rw [hTx]
    rfl
  · intro l hl i hi
    rw [hTx]
    obtain ⟨r, hrow⟩ := Option.isSome_iff_exists.mp (hri2 l hl)
    obtain ⟨hv, hq, hp, hi2⟩ := rowOf_eq_some.mp hrow
    have hib : i = ⟨r.available, r.reserved⟩ := by
      rw [hi] at hi2
      exact Option.some.inj hi2
    have hmem : r ∈ checkoutRows db uid := mem_checkoutRows.mpr ⟨l, hl, hrow⟩
    have hupd := applyReserves_invRow_mem db (checkoutRows_nodup hnd) hmem
    show (applyReserves db (checkoutRows db uid)).invRow l.variantId = _
    rw [hv, hupd, ← hv, hi, hib, hq]
    rfl
  · rw [hTx]
    show (if uid = uid then [] else _) = []
    simp
  · rw [hTx]
    show (applyReserves db (checkoutRows db uid)).orders ++ _ = _
    rw [applyReserves_orders]
  · show ((checkoutRows db uid).map orderLineOf).length = _
    rw [List.length_map]
    exact hlen

/-- C1 witness: the postconditions instantiated at the sample store, user
1, whose two-line cart has sufficient stock on both variants. -/
theorem checkout_success_postconditions_witness :
    ∃ o : Order,
      (checkoutTx sampleDB 1 "USD").result = .ok o ∧
      (∀ l ∈ sampleDB.carts 1, ∀ i, sampleDB.invRow l.variantId = some i →
        (checkoutTx sampleDB 1 "USD").db.invRow l.variantId =
          some ⟨i.available - l.quantity, i.reserved + l.quantity⟩) ∧
      (checkoutTx sampleDB 1 "USD").db.carts 1 = [] ∧
      (checkoutTx sampleDB 1 "USD").db.orders = sampleDB.orders ++ [o] ∧
      o.lines.length = (sampleDB.carts 1).length :=
  checkout_success_postconditions sampleDB 1 "USD"
    (by decide) (by decide) (by decide) (by decide)

end ECom

namespace ECom

open Routes

/-- C2: checkout errors exactly when the cart of the user is empty or some
cart line exceeds the net available stock of its variant as read under
the lock; an empty cart yields the 400 empty-cart error rather than a
no-op success; and every error leaves the store exactly as it was (the
transaction rolls back all mutations).  The store itself is modelled as
never failing, so the store-failure disjunct of the claim is vacuous
here. -/
theorem checkout_error_characterization
    (db : DB) (uid : Nat) (currency : String)
    (hri : ∀ l ∈ db.carts uid,
      (db.variantPrice l.variantId).isSome ∧ (db.invRow l.variantId).isSome) :
    ((∃ e, (checkoutTx db uid currency).result = .error e) ↔
      (db.carts uid = [] ∨
        ∃ l ∈ db.carts uid, ∃ i, db.invRow l.variantId = some i ∧
          i.available - i.reserved < l.quantity)) ∧
    (db.carts uid = [] →
      (checkoutTx db uid currency).result = .error .emptyCart) ∧
    (∀ e, (checkoutTx db uid currency).result = .error e →
      (checkoutTx db uid currency).db = db ∧ CheckoutErr.status e = 400) := by
  have hri2 : ∀ l ∈ db.carts uid, (rowOf db l).isSome :=
    fun l hl => rowOf_isSome.mpr (hri l hl)
  have hlen := checkoutRows_length hri2
  have hempty : checkoutRows db uid = [] ↔ db.carts uid = [] := by
    constructor
    · intro h0
      rw [h0] at hlen
      exact List.eq_nil_of_length_eq_zero hlen.symm
    · intro h0
      unfold checkoutRows
      rw [h0]
      rfl
  have hbad : (∃ r ∈ checkoutRows db uid, insufficient r) ↔
      (∃ l ∈ db.carts uid, ∃ i, db.invRow l.variantId = some i ∧
        i.available - i.reserved < l.quantity) := by
    constructor
    · rintro ⟨r, hr, hins⟩
      obtain ⟨l, hl, hrow⟩ := mem_checkoutRows.mp hr
      obtain ⟨hv, hq, hp, hi⟩ := rowOf_eq_some.mp hrow
      refine ⟨l, hl, ⟨r.available, r.reserved⟩, hi, ?_⟩
      simp only [insufficient, decide_eq_true_eq] at hins
      rw [hq]
      exact hins
    · rintro ⟨l, hl, i, hi, hlt⟩
      obtain ⟨p, hp⟩ := Option.isSome_iff_exists.mp (hri l hl).1
      have hrow : rowOf db l =
          some ⟨l.variantId, l.quantity, p, i.available, i.reserved⟩ :=
        rowOf_eq_some.mpr ⟨rfl, rfl, hp, by rw [hi]⟩
      refine ⟨_, mem_checkoutRows.mpr ⟨l, hl, hrow⟩, ?_⟩
      simp only [insufficient, decide_eq_true_eq]
      exact hlt
  refine ⟨?_, ?_, ?_⟩
  · rw [show (∃ e, (checkoutTx db uid currency).result = .error e) ↔
        (∃ e, checkout db uid currency = .error e) from
      exists_congr (fun e => checkoutTx_result_error)]
    rw [checkout_error_iff_rows, hempty, hbad]
  · intro h0
    apply checkoutTx_result_error.mpr
    unfold checkout
    rw [hempty.mpr h0]
    rfl
  · intro e he
    refine ⟨checkoutTx_db_of_error he, ?_⟩
    cases e <;> rfl

/-- C2 witness: the characterization instantiated at the sample store for
user 2, whose cart is empty. -/
theorem checkout_error_characterization_witness :
    ((∃ e, (checkoutTx sampleDB 2 "USD").result = .error e) ↔
      (sampleDB.carts 2 = [] ∨
        ∃ l ∈ sampleDB.carts 2, ∃ i, sampleDB.invRow l.variantId = some i ∧
          i.available - i.reserved < l.quantity)) ∧
    (sampleDB.carts 2 = [] →
      (checkoutTx sampleDB 2 "USD").result = .error .emptyCart) ∧
    (∀ e, (checkoutTx sampleDB 2 "USD").result = .error e →
      (checkoutTx sampleDB 2 "USD").db = sampleDB ∧ CheckoutErr.status e = 400) :=
  checkout_error_characterization sampleDB 2 "USD" (by decide)

/-- C3: every order created by checkout has total equal to the sum over
its lines of quantity times unit price, each stored subtotal equals
quantity times unit price, and every unit price is the current variant
price read from the catalog at checkout time (the cart rows of this
schema cache no price at all). -/
theorem order_total_and_prices
    (db : DB) (uid : Nat) (currency : String) (o : Order)
    (h : (checkoutTx db uid currency).result = .ok o) :
    o.total_cents = (o.lines.map fun l => l.quantity * l.unit_price_cents).sum ∧
    ∀ l ∈ o.lines, l.subtotal_cents = l.quantity * l.unit_price_cents ∧
      db.variantPrice l.variantId = some l.unit_price_cents := by
  obtain ⟨db2, hok⟩ := checkoutTx_result_ok.mp h
  obtain ⟨_, _, hx⟩ := checkout_ok_inv hok
  have ho : o = checkoutOrder db uid currency := congrArg Prod.snd hx
  subst ho
  constructor
  · show ((checkoutRows db uid).map fun r => r.quantity * r.price_cents).sum = _
    rw [show (checkoutOrder db uid currency).lines =
        (checkoutRows db uid).map orderLineOf from rfl]
    rw [List.map_map]
    rfl
  · intro l hl
    rw [show (checkoutOrder db uid currency).lines =
        (checkoutRows db uid).map orderLineOf from rfl] at hl
    obtain ⟨r, hr, rfl⟩ := List.mem_map.mp hl
    refine ⟨rfl, ?_⟩
    obtain ⟨lc, hlc, hrow⟩ := mem_checkoutRows.mp hr
    obtain ⟨hv, hq, hp, hi⟩ := rowOf_eq_some.mp hrow
    show db.variantPrice r.variantId = some r.price_cents
    rw [← hv]
    exact hp

/-- C3 witness: the pricing invariants instantiated at the concrete order
created by checking out the two-line cart of user 1 of the sample store. -/
theorem order_total_and_prices_witness :
    (Order.mk 1 3100 "USD"
        [⟨1, 500, 5, 2500⟩, ⟨2, 300, 2, 600⟩]).total_cents =
      ((Order.mk 1 3100 "USD"
        [⟨1, 500, 5, 2500⟩, ⟨2, 300, 2, 600⟩]).lines.map
          fun l => l.quantity * l.unit_price_cents).sum ∧
    ∀ l ∈ (Order.mk 1 3100 "USD"
        [⟨1, 500, 5, 2500⟩, ⟨2, 300, 2, 600⟩]).lines,
      l.subtotal_cents = l.quantity * l.unit_price_cents ∧
      sampleDB.variantPrice l.variantId = some l.unit_price_cents :=
  order_total_and_prices sampleDB 1 "USD"
    (Order.mk 1 3100 "USD" [⟨1, 500, 5, 2500⟩, ⟨2, 300, 2, 600⟩])
    (by decide)

end ECom

namespace ECom

theorem setInv_invRow (db : App.AppDB) (vid : Nat) (i : Inventory) (v : Nat) :
    (App.setInv db vid i).invRow v = if v = vid then some i else db.invRow v := rfl

theorem invNonneg_setInv {db : App.AppDB} {vid : Nat} {i : Inventory}
    (h : InvNonneg db.invRow) (ha : 0 ≤ i.available) (hr : 0 ≤ i.reserved) :
    InvNonneg (App.setInv db vid i).invRow := by
  intro v j hj
  rw [setInv_invRow] at hj
  by_cases hv : v = vid
  · rw [if_pos hv] at hj
    cases hj
    exact ⟨ha, hr⟩
  · rw [if_neg hv] at hj
    exact h v j hj

/-- C4: starting from non-negative counters, each inventory operation of
the system keeps them non-negative: the conditional reservation UPDATE
(whose quantities the service bounds to be positive), the clamping
release UPDATE, the administrative inventory upsert, and the reservation
step of checkout (whose cart quantities the request schemas bound to be
at least 1, with one cart line per variant as the unique index
enforces). -/
theorem inventory_nonneg_preserved :
    (∀ (db : App.AppDB) (vid : Nat) (q : Int), 0 ≤ q →
      InvNonneg db.invRow →
      InvNonneg (App.repo_reserve_inventory db vid q).1.invRow) ∧
    (∀ (db : App.AppDB) (vid : Nat) (q : Int),
      InvNonneg db.invRow →
      InvNonneg (App.repo_release_inventory db vid q).1.invRow) ∧
    (∀ (db : App.AppDB) (vid : Nat) (a r : Int) (db2 : App.AppDB) (b : Bool),
      App.repo_update_inventory db vid a r = .ok (db2, b) →
      InvNonneg db.invRow → InvNonneg db2.invRow) ∧
    (∀ (db : Routes.DB) (uid : Nat) (currency : String),
      (∀ l ∈ db.carts uid, 0 ≤ l.quantity) →
      ((db.carts uid).map Routes.CartLine.variantId).Nodup →
      InvNonneg db.invRow →
      InvNonneg ((Routes.checkoutTx db uid currency).db.invRow)) := by
  refine ⟨?_, ?_, ?_, ?_⟩
  · intro db vid q hq h
    unfold App.repo_reserve_inventory
    cases hinv : db.invRow vid with
    | none => exact h
    | some i =>
      show InvNonneg (if q ≤ i.available - i.reserved then
          (App.setInv db vid ⟨i.available, i.reserved + q⟩, true)
        else (db, false)).1.invRow
      by_cases hc : q ≤ i.available - i.reserved
      · rw [if_pos hc]
        have h2 := h vid i hinv
        exact invNonneg_setInv h h2.1 (show (0:Int) ≤ i.reserved + q by
          have := h2.2
          omega)
      · rw [if_neg hc]
        exact h
  · intro db vid q h
    unfold App.repo_release_inventory
    cases hinv : db.invRow vid with
    | none => exact h
    | some i =>
      show InvNonneg (App.setInv db vid ⟨i.available, max 0 (i.reserved - q)⟩,
        true).1.invRow
      have h2 := h vid i hinv
      exact invNonneg_setInv h h2.1 (le_max_left 0 _)
  · intro db vid a r db2 b hok h
    unfold App.repo_update_inventory at hok
    by_cases hneg : a < 0 ∨ r < 0
    · rw [if_pos hneg] at hok
      cases hok
    · rw [if_neg hneg] at hok
      cases hok
      exact invNonneg_setInv h (show (0:Int) ≤ a by omega)
        (show (0:Int) ≤ r by omega)
  · intro db uid currency hquant hnd h
    cases hc : Routes.checkout db uid currency with
    | error e =>
      have hd : (Routes.checkoutTx db uid currency).db = db := by
        unfold Routes.checkoutTx
        rw [hc]
      rw [hd]
      exact h
    | ok x =>
      obtain ⟨hne, hfind, hx⟩ := Routes.checkout_ok_inv hc
      have hTx : Routes.checkoutTx db uid currency =
          ⟨(Routes.checkoutCommit db uid currency).1,
           .ok (Routes.checkoutCommit db uid currency).2⟩ := by
        unfold Routes.checkoutTx
        rw [hc, hx]
      have hdbx : (Routes.checkoutTx db uid currency).db.invRow =
          (Routes.applyReserves db (Routes.checkoutRows db uid)).invRow := by
        rw [hTx]
        exact rfl
      rw [hdbx]
      intro v j hj
      by_cases hmem : ∃ r ∈ Routes.checkoutRows db uid, r.variantId = v
      · obtain ⟨r, hr, hveq⟩ := hmem
        subst hveq
        rw [Routes.applyReserves_invRow_mem db (Routes.checkoutRows_nodup hnd) hr]
          at hj
        obtain ⟨l, hl, hrow⟩ := Routes.mem_checkoutRows.mp hr
        obtain ⟨hv2, hq2, hp2, hi2⟩ := Routes.rowOf_eq_some.mp hrow
        rw [hv2] at hi2
        rw [hi2] at hj
        have hnn1 : (0:Int) ≤ r.available :=
          (h r.variantId ⟨r.available, r.reserved⟩ hi2).1
        have hnn2 : (0:Int) ≤ r.reserved :=
          (h r.variantId ⟨r.available, r.reserved⟩ hi2).2
        have hquant2 : (0:Int) ≤ r.quantity := hq2 ▸ hquant l hl
        have hins := List.find?_eq_none.mp hfind r hr
        simp only [Routes.insufficient, decide_eq_true_eq, not_lt] at hins
        cases hj
        refine ⟨show (0:Int) ≤ r.available - r.quantity by omega,
                show (0:Int) ≤ r.reserved + r.quantity by omega⟩
      · push_neg at hmem
        rw [Routes.applyReserves_invRow_not_mem db hmem] at hj
        exact h v j hj

end ECom

namespace ECom

theorem invNonneg_sampleAppDB : InvNonneg sampleAppDB.invRow := by
  intro v i h
  have he : sampleAppDB.invRow v = if v = 1 then some ⟨10, 0⟩ else none := rfl
  rw [he] at h
  split at h
  · cases h
    exact ⟨by decide, by decide⟩
  · cases h

theorem invNonneg_sampleDB : InvNonneg sampleDB.invRow := by
  intro v i h
  have he : sampleDB.invRow v =
      if v = 1 then some ⟨10, 0⟩ else if v = 2 then some ⟨8, 3⟩ else none := rfl
  rw [he] at h
  split at h
  · cases h
    exact ⟨by decide, by decide⟩
  · split at h
    · cases h
      exact ⟨by decide, by decide⟩
    · cases h

/-- C4 witness: the four preservation statements instantiated on the
sample stores (reserve 5 of variant 1, release 99 of variant 1, reset the
counters to 7 and 2, and one full checkout). -/
theorem inventory_nonneg_preserved_witness :
    InvNonneg (App.repo_reserve_inventory sampleAppDB 1 5).1.invRow ∧
    InvNonneg (App.repo_release_inventory sampleAppDB 1 99).1.invRow ∧
    InvNonneg (App.setInv sampleAppDB 1 ⟨7, 2⟩).invRow ∧
    InvNonneg ((Routes.checkoutTx sampleDB 1 "USD").db.invRow) :=
  ⟨inventory_nonneg_preserved.1 sampleAppDB 1 5 (by decide) invNonneg_sampleAppDB,
   inventory_nonneg_preserved.2.1 sampleAppDB 1 99 invNonneg_sampleAppDB,
   inventory_nonneg_preserved.2.2.1 sampleAppDB 1 7 2
     (App.setInv sampleAppDB 1 ⟨7, 2⟩) true rfl invNonneg_sampleAppDB,
   inventory_nonneg_preserved.2.2.2 sampleDB 1 "USD"
     (by decide) (by decide) invNonneg_sampleDB⟩

/-- C5 counterexample: variant 1 of the sample service store has available
10 and reserved 0, so the claimed condition available - reserved at least
the requested quantity holds at quantity 10, yet the code answers false
(its minimum-stock subtraction keeps one unit back). -/
theorem check_availability_claim_cex :
    App.getVariantRepo sampleAppDB 1 = some ⟨100, 10, 0⟩ ∧
    (10 : Int) ≤ (10 : Int) - (0 : Int) ∧
    App.check_variant_availability sampleAppDB 1 10 = .ok false := by
  refine ⟨by rfl, by decide, by rfl⟩

/-- C5 amended: for positive requested quantities, availability answers
true exactly when the quantity is at most max(0, max(0, available -
reserved) - minStock) where minStock = min(max(1, available / 20), 5); a
missing variant answers false; a non-positive quantity is a validation
error.  The operation only reads the store. -/
theorem check_availability_spec :
    (∀ (db : App.AppDB) (vid : Nat) (q : Int) (v : App.ProductVariant),
      0 < q → App.getVariantRepo db vid = some v →
      (App.check_variant_availability db vid q = .ok true ↔
        q ≤ max 0 (App.available_quantity v - App.min_stock_level v))) ∧
    (∀ (db : App.AppDB) (vid : Nat) (q : Int), 0 < q →
      App.getVariantRepo db vid = none →
      App.check_variant_availability db vid q = .ok false) ∧
    (∀ (db : App.AppDB) (vid : Nat) (q : Int), q ≤ 0 →
      App.check_variant_availability db vid q = .error .validation) := by
  refine ⟨?_, ?_, ?_⟩
  · intro db vid q v hq hv
    unfold App.check_variant_availability
    rw [if_neg (not_le.mpr hq), hv]
    simp
  · intro db vid q hq hv
    unfold App.check_variant_availability
    rw [if_neg (not_le.mpr hq), hv]
  · intro db vid q hq
    unfold App.check_variant_availability
    rw [if_pos hq]

/-- C5 amended witness: at variant 1 of the sample service store the
effective availability is 9, so quantity 9 is accepted; a missing variant
2 answers false; quantity 0 is rejected as validation error. -/
theorem check_availability_spec_witness :
    (App.check_variant_availability sampleAppDB 1 9 = .ok true ↔
      (9 : Int) ≤ max 0 (App.available_quantity ⟨100, 10, 0⟩ -
        App.min_stock_level ⟨100, 10, 0⟩)) ∧
    App.check_variant_availability sampleAppDB 2 3 = .ok false ∧
    App.check_variant_availability sampleAppDB 1 0 = .error .validation :=
  ⟨check_availability_spec.1 sampleAppDB 1 9 ⟨100, 10, 0⟩ (by decide) (by rfl),
   check_availability_spec.2.1 sampleAppDB 2 3 (by decide) (by rfl),
   check_availability_spec.2.2 sampleAppDB 1 0 (by decide)⟩

/-- C7: for every stocked variant and positive quantity, the release
operation succeeds without error and sets reserved to max(0, reserved -
quantity) while leaving available untouched; in particular releasing more
than is reserved clamps reserved to exactly 0. -/
theorem release_clamps_reserved
    (db : App.AppDB) (vid : Nat) (q : Int) (i : Inventory)
    (hq : 0 < q) (hi : db.invRow vid = some i) :
    ∃ db2, App.svc_release_inventory db vid q = .ok (db2, true) ∧
      db2.invRow vid = some ⟨i.available, max 0 (i.reserved - q)⟩ ∧
      (i.reserved ≤ q → db2.invRow vid = some ⟨i.available, 0⟩) := by
  refine ⟨App.setInv db vid ⟨i.available, max 0 (i.reserved - q)⟩, ?_, ?_, ?_⟩
  · unfold App.svc_release_inventory App.repo_release_inventory
    rw [if_neg (not_le.mpr hq), hi]
  · rw [setInv_invRow, if_pos rfl]
  · intro hle
    rw [setInv_invRow, if_pos rfl]
    have : max 0 (i.reserved - q) = 0 := by omega
    rw [this]

/-- C7 witness: releasing 15 units of variant 1 of the sample service
store (10 available, 0 reserved) succeeds and clamps reserved to 0. -/
theorem release_clamps_reserved_witness :
    ∃ db2, App.svc_release_inventory sampleAppDB 1 15 = .ok (db2, true) ∧
      db2.invRow 1 = some ⟨(10 : Int), max 0 ((0 : Int) - (15 : Int))⟩ ∧
      ((0 : Int) ≤ (15 : Int) → db2.invRow 1 = some ⟨(10 : Int), (0 : Int)⟩) :=
  release_clamps_reserved sampleAppDB 1 15 ⟨10, 0⟩ (by decide) (by rfl)

end ECom

namespace ECom.Routes

theorem filter_variant_single {vid : Nat} :
    ∀ {L : List CartLine} {l0 : CartLine},
      ((L.map CartLine.variantId).Nodup) → l0 ∈ L → l0.variantId = vid →
      L.filter (fun l => l.variantId == vid) = [l0] := by
  intro L
  induction L with
  | nil => intro l0 _ h _; cases h
  | cons x xs ih =>
    intro l0 hnd hmem hv
    rcases List.mem_cons.mp hmem with heq | hxs
    · subst heq
      rw [List.filter_cons_of_pos (by simp [hv])]
      have hnil : xs.filter (fun l => l.variantId == vid) = [] := by
        apply List.filter_eq_nil_iff.mpr
        intro a ha
        simp only [beq_iff_eq]
        intro hav
        exact (List.nodup_cons.mp hnd).1
          (by rw [hv, ← hav]; exact List.mem_map_of_mem _ ha)
      rw [hnil]
    · have hx : ¬ (x.variantId == vid) = true := by
        simp only [beq_iff_eq]
        intro hxv
        exact (List.nodup_cons.mp hnd).1
          (by rw [hxv, ← hv]; exact List.mem_map_of_mem _ hxs)
      rw [List.filter_cons, if_neg hx]
      exact ih (List.nodup_cons.mp hnd).2 hxs hv

theorem upsert_merge_filter {vid : Nat} {q : Int} :
    ∀ {L : List CartLine},
      (L.map (fun l => if l.variantId == vid then
          { l with quantity := l.quantity + q } else l)).filter
        (fun l => l.variantId == vid) =
      (L.filter (fun l => l.variantId == vid)).map
        (fun l => { l with quantity := l.quantity + q }) := by
  intro L
  induction L with
  | nil => rfl
  | cons x xs ih =>
    by_cases hx : (x.variantId == vid) = true
    · have hx2 : (({ x with quantity := x.quantity + q } : CartLine).variantId
          == vid) = true := hx
      rw [List.map_cons, if_pos hx, List.filter_cons, if_pos hx2,
        List.filter_cons, if_pos hx, List.map_cons, ih]
    · rw [List.map_cons, if_neg hx, List.filter_cons, if_neg hx,
        List.filter_cons, if_neg hx, ih]

end ECom.Routes

namespace ECom

open Routes

/-- C6: for an existing variant and a schema-valid requested quantity,
with newTotal the existing line quantity plus the requested one: the add
endpoint rejects (leaving the store untouched) exactly the cases the
claim names when newTotal exceeds the cap 99 or the net available stock,
and otherwise succeeds leaving exactly one cart line for the variant,
carrying quantity newTotal (merged, never duplicated). -/
theorem add_item_cap_and_stock
    (db : DB) (uid vid : Nat) (q p : Int)
    (hp : db.variantPrice vid = some p)
    (h1 : 1 ≤ q) (h99 : q ≤ 99)
    (hnd : ((db.carts uid).map CartLine.variantId).Nodup) :
    ((99 < q + existingQty db uid vid ∨
        netAvailable db vid < q + existingQty db uid vid) →
      (∃ e, add_cart_item db uid vid q = .error e) ∧
      addItemState db uid vid q = db) ∧
    ((q + existingQty db uid vid ≤ 99 ∧
        q + existingQty db uid vid ≤ netAvailable db vid) →
      ∃ db2, add_cart_item db uid vid q = .ok db2 ∧
        ((db2.carts uid).filter (fun l => l.variantId == vid)).map
          (fun l => l.quantity) = [q + existingQty db uid vid]) := by
  have hq0 : ¬(q < 1 ∨ 99 < q) := by omega
  constructor
  · intro hbad
    by_cases hcap : 99 < q + existingQty db uid vid
    · have hE : add_cart_item db uid vid q = .error .badRequest := by
        unfold add_cart_item
        simp only [if_neg hq0, hp]
        rw [if_pos hcap]
      exact ⟨⟨_, hE⟩, by unfold addItemState; rw [hE]⟩
    · rcases hbad with hb | hb
      · exact absurd hb hcap
      · have hE : add_cart_item db uid vid q = .error .insufficientStock := by
          unfold add_cart_item
          simp only [if_neg hq0, hp]
          rw [if_neg hcap, if_pos hb]
        exact ⟨⟨_, hE⟩, by unfold addItemState; rw [hE]⟩
  · rintro ⟨hcap, hstock⟩
    have hE : add_cart_item db uid vid q = .ok { db with
        carts := fun u =>
          if u = uid then upsertLine (db.carts u) vid q db.nextId
          else db.carts u,
        nextId := db.nextId + 1 } := by
      unfold add_cart_item
      simp only [if_neg hq0, hp]
      rw [if_neg (not_lt.mpr hcap), if_neg (not_lt.mpr hstock)]
    refine ⟨_, hE, ?_⟩
    show ((if uid = uid then upsertLine (db.carts uid) vid q db.nextId
        else db.carts uid).filter (fun l => l.variantId == vid)).map
        (fun l => l.quantity) = _
    rw [if_pos rfl]
    unfold upsertLine
    cases hf : (db.carts uid).find? (fun l => l.variantId == vid) with
    | none =>
      have hLnil : (db.carts uid).filter (fun l => l.variantId == vid) = [] :=
        List.filter_eq_nil_iff.mpr (fun a ha => List.find?_eq_none.mp hf a ha)
      rw [List.filter_append, hLnil]
      rw [show ([(⟨db.nextId, vid, q⟩ : CartLine)].filter
          (fun l => l.variantId == vid)) = [⟨db.nextId, vid, q⟩] from by simp]
      unfold existingQty
      rw [hf]
      simp
    | some l0 =>
      have hl0mem := List.mem_of_find?_eq_some hf
      have hl0v : l0.variantId = vid := by simpa using List.find?_some hf
      rw [upsert_merge_filter, filter_variant_single hnd hl0mem hl0v]
      unfold existingQty
      rw [hf]
      simp [Int.add_comm]

/-- C6 witness: adding 2 more units of variant 2 to the cart of user 1 of
the sample store (2 already in the cart, net stock 5) is accepted and
merges to a single line of quantity 4. -/
theorem add_item_cap_and_stock_witness :
    ((99 < 2 + existingQty sampleDB 1 2 ∨
        netAvailable sampleDB 2 < 2 + existingQty sampleDB 1 2) →
      (∃ e, add_cart_item sampleDB 1 2 2 = .error e) ∧
      addItemState sampleDB 1 2 2 = sampleDB) ∧
    ((2 + existingQty sampleDB 1 2 ≤ 99 ∧
        2 + existingQty sampleDB 1 2 ≤ netAvailable sampleDB 2) →
      ∃ db2, add_cart_item sampleDB 1 2 2 = .ok db2 ∧
        ((db2.carts 1).filter (fun l => l.variantId == 2)).map
          (fun l => l.quantity) = [2 + existingQty sampleDB 1 2]) :=
  add_item_cap_and_stock sampleDB 1 2 2 300 (by decide) (by decide) (by decide)
    (by decide)

end ECom

namespace ECom

/-- C8 counterexample: in the service layer, updating the quantity of the
single cart line of user 3 from 1 to 3 reserves the 2-unit increase:
variant 1 goes from reserved 0 to reserved 2, so a cart mutation does
mutate inventory, contradicting the claim. -/
theorem cart_update_mutates_inventory_cex :
    updateAppDB.invRow 1 = some ⟨20, 0⟩ ∧
    (App.svcUpdateState updateAppDB 3 10 3).invRow 1 = some ⟨20, 2⟩ :=
  ⟨rfl, rfl⟩

/-- C8 amended: the route-layer cart mutations (add item, update item
including the quantity-0 removal, delete item) leave every inventory row
unchanged, and so does the service-layer add; the service-layer update,
remove and clear, by contrast, reserve or release stock (see the
counterexample). -/
theorem cart_mutations_inventory_frame :
    (∀ (db : Routes.DB) (uid vid : Nat) (q : Int) (v : Nat),
      (Routes.addItemState db uid vid q).invRow v = db.invRow v) ∧
    (∀ (db : Routes.DB) (uid cid : Nat) (q : Int) (v : Nat),
      (Routes.updateItemState db uid cid q).invRow v = db.invRow v) ∧
    (∀ (db : Routes.DB) (uid cid : Nat) (v : Nat),
      (Routes.deleteItemState db uid cid).invRow v = db.invRow v) ∧
    (∀ (db : App.AppDB) (uid vid : Nat) (q : Int) (v : Nat),
      (App.svcAddState db uid vid q).invRow v = db.invRow v) := by
  refine ⟨?_, ?_, ?_, ?_⟩
  · intro db uid vid q v
    unfold Routes.addItemState
    cases h : Routes.add_cart_item db uid vid q with
    | error e => rfl
    | ok db2 =>
      unfold Routes.add_cart_item at h
      split at h
      · cases h
      · split at h
        · cases h
        · split at h
          · cases h
          · split at h
            · cases h
            · cases h
              rfl
  · intro db uid cid q v
    unfold Routes.updateItemState
    cases h : Routes.update_cart_item db uid cid q with
    | error e => rfl
    | ok db2 =>
      unfold Routes.update_cart_item at h
      split at h
      · cases h
      · split at h
        · cases h
        · split at h
          · cases h
            rfl
          · split at h
            · cases h
            · cases h
              rfl
  · intro db uid cid v
    unfold Routes.deleteItemState
    cases h : Routes.delete_cart_item db uid cid with
    | error e => rfl
    | ok db2 =>
      unfold Routes.delete_cart_item at h
      split at h
      · cases h
        rfl
      · cases h
  · intro db uid vid q v
    unfold App.svcAddState
    cases h : App.svc_add_item_to_cart db uid vid q with
    | error e => rfl
    | ok x =>
      obtain ⟨db2, item⟩ := x
      unfold App.svc_add_item_to_cart at h
      cases hv : App.getVariantRepo db vid with
      | none =>
        rw [hv] at h
        exact Except.noConfusion h
      | some pv =>
        rw [hv] at h
        rw [show (match some pv with
            | none => (Except.error .validation : Except App.SvcErr (App.AppDB × App.CartLine))
            | some v => if v.price_cents ≤ 0 then Except.error App.SvcErr.businessLogic
              else
                match App.check_variant_availability db vid q with
                | Except.error e => Except.error e
                | Except.ok false => Except.error App.SvcErr.businessLogic
                | Except.ok true =>
                  if 50 ≤ (db.carts uid).length ∧
                      List.find? (fun l => l.variantId == vid) (db.carts uid) = none then
                    Except.error App.SvcErr.businessLogic
                  else
                    if 99 < q + (match List.find? (fun l => l.variantId == vid) (db.carts uid) with
                        | some e => e.quantity
                        | none => 0) then
                      Except.error App.SvcErr.businessLogic
                    else Except.ok (App.repo_add_item db uid vid q)) =
          (if pv.price_cents ≤ 0 then Except.error App.SvcErr.businessLogic
            else
              match App.check_variant_availability db vid q with
              | Except.error e => Except.error e
              | Except.ok false => Except.error App.SvcErr.businessLogic
              | Except.ok true =>
                if 50 ≤ (db.carts uid).length ∧
                    List.find? (fun l => l.variantId == vid) (db.carts uid) = none then
                  Except.error App.SvcErr.businessLogic
                else
                  if 99 < q + (match List.find? (fun l => l.variantId == vid) (db.carts uid) with
                      | some e => e.quantity
                      | none => 0) then
                    Except.error App.SvcErr.businessLogic
                  else Except.ok (App.repo_add_item db uid vid q)) from rfl] at h
        by_cases hpr : pv.price_cents ≤ 0
        · rw [if_pos hpr] at h
          exact Except.noConfusion h
        · rw [if_neg hpr] at h
          cases hchk : App.check_variant_availability db vid q with
          | error e2 =>
            rw [hchk] at h
            exact Except.noConfusion h
          | ok b =>
            rw [hchk] at h
            cases b with
            | false => exact Except.noConfusion h
            | true =>
              by_cases hcond : 50 ≤ (db.carts uid).length ∧
                  (db.carts uid).find? (fun l => l.variantId == vid) = none
              · rw [if_pos hcond] at h
                exact Except.noConfusion h
              · rw [if_neg hcond] at h
                by_cases hcap : 99 < q + (match (db.carts uid).find?
                      (fun l => l.variantId == vid) with
                    | some e => e.quantity
                    | none => 0)
                · rw [if_pos hcap] at h
                  exact Except.noConfusion h
                · rw [if_neg hcap] at h
                  have hpair := Except.ok.inj h
                  rw [show db2 = (App.repo_add_item db uid vid q).1 from by
                    rw [hpair]]
                  unfold App.repo_add_item
                  cases hf : (db.carts uid).find?
                      (fun l => l.variantId == vid) with
                  | some e2 => rfl
                  | none => rfl

end ECom

namespace ECom

theorem clear_empty_aux {db : App.AppDB} {uid : Nat} (h : db.carts uid = []) :
    App.svc_clear_cart db uid =
      .ok ({ db with carts := fun u => if u = uid then [] else db.carts u },
        false) := by
  have h1 : App.releaseAll db (db.carts uid) = .ok db := by
    rw [h]
    rfl
  have h3 : App.repo_clear_cart db uid =
      ({ db with carts := fun u => if u = uid then [] else db.carts u },
        false) := by
    unfold App.repo_clear_cart
    rw [h]
    rfl
  unfold App.svc_clear_cart
  rw [h1]
  show Except.ok (App.repo_clear_cart db uid) = _
  rw [h3]

/-- C9 counterexample: user 7 of the sample service store has an empty
cart; clearing it raises no error but returns the boolean false (the
affected_rows > 0 signal), not a success value as the claim demands. -/
theorem clear_empty_cart_returns_false_cex :
    sampleAppDB.carts 7 = [] ∧
    App.svcClearResult sampleAppDB 7 = some false :=
  ⟨rfl, rfl⟩

/-- C9 amended: clearing an empty cart raises no error but reports false
(zero rows deleted); it mutates nothing — the cart stays empty, every
cart and every inventory row is unchanged — and repeating the clear
returns the same false with the cart still empty. -/
theorem clear_empty_cart_spec
    (db : App.AppDB) (uid : Nat) (h : db.carts uid = []) :
    App.svcClearResult db uid = some false ∧
    (App.svcClearState db uid).carts uid = [] ∧
    (∀ u, (App.svcClearState db uid).carts u = db.carts u) ∧
    (∀ v, (App.svcClearState db uid).invRow v = db.invRow v) ∧
    App.svcClearResult (App.svcClearState db uid) uid = some false := by
  have hclear := clear_empty_aux h
  have hstate : App.svcClearState db uid =
      { db with carts := fun u => if u = uid then [] else db.carts u } := by
    unfold App.svcClearState
    rw [hclear]
  have hcarts : ∀ u, (App.svcClearState db uid).carts u = db.carts u := by
    intro u
    rw [hstate]
    show (if u = uid then [] else db.carts u) = db.carts u
    by_cases hu : u = uid
    · rw [if_pos hu, hu, h]
    · rw [if_neg hu]
  refine ⟨?_, ?_, hcarts, ?_, ?_⟩
  · unfold App.svcClearResult
    rw [hclear]
  · rw [hcarts uid, h]
  · intro v
    rw [hstate]
  · have h2 : (App.svcClearState db uid).carts uid = [] := by rw [hcarts uid, h]
    unfold App.svcClearResult
    rw [clear_empty_aux h2]

/-- C9 witness: the amended statement instantiated at user 7 of the
sample service store, whose cart is empty. -/
theorem clear_empty_cart_spec_witness :
    App.svcClearResult sampleAppDB 7 = some false ∧
    (App.svcClearState sampleAppDB 7).carts 7 = [] ∧
    (∀ u, (App.svcClearState sampleAppDB 7).carts u = sampleAppDB.carts u) ∧
    (∀ v, (App.svcClearState sampleAppDB 7).invRow v = sampleAppDB.invRow v) ∧
    App.svcClearResult (App.svcClearState sampleAppDB 7) 7 = some false :=
  clear_empty_cart_spec sampleAppDB 7 (by decide)

end ECom

namespace ECom

theorem svc_add_eval {db : App.AppDB} {uid vid : Nat} {q : Int}
    {v : App.ProductVariant} (hv : App.getVariantRepo db vid = some v) :
    App.svc_add_item_to_cart db uid vid q =
      (if v.price_cents ≤ 0 then Except.error App.SvcErr.businessLogic
       else
         match App.check_variant_availability db vid q with
         | Except.error e => Except.error e
         | Except.ok false => Except.error App.SvcErr.businessLogic
         | Except.ok true =>
           if 50 ≤ (db.carts uid).length ∧
               (db.carts uid).find? (fun l => l.variantId == vid) = none then
             Except.error App.SvcErr.businessLogic
           else
             if 99 < q + (match (db.carts uid).find?
                   (fun l => l.variantId == vid) with
                 | some e => e.quantity
                 | none => 0) then
               Except.error App.SvcErr.businessLogic
             else Except.ok (App.repo_add_item db uid vid q)) := by
  unfold App.svc_add_item_to_cart
  rw [hv]

theorem svc_add_eval2 {db : App.AppDB} {uid vid : Nat} {q : Int}
    {v : App.ProductVariant} (hv : App.getVariantRepo db vid = some v)
    (hpr : ¬ v.price_cents ≤ 0)
    (hchk : App.check_variant_availability db vid q = .ok true) :
    App.svc_add_item_to_cart db uid vid q =
      (if 50 ≤ (db.carts uid).length ∧
           (db.carts uid).find? (fun l => l.variantId == vid) = none then
         Except.error App.SvcErr.businessLogic
       else
         if 99 < q + (match (db.carts uid).find?
               (fun l => l.variantId == vid) with
             | some e => e.quantity
             | none => 0) then
           Except.error App.SvcErr.businessLogic
         else Except.ok (App.repo_add_item db uid vid q)) := by
  rw [svc_add_eval hv, if_neg hpr, hchk]

/-- C10: in the service layer a cart holds at most 50 distinct lines: an
add for a variant not in the cart is rejected whenever the cart already
has 50 or more lines even though the variant exists, is sellable, and
stock and the 99 cap would permit it; an add that merges into an existing
line still succeeds at the limit without growing the cart; and the
50-line bound is preserved by every add. -/
theorem cart_fifty_line_limit :
    (∀ (db : App.AppDB) (uid vid : Nat) (q : Int) (v : App.ProductVariant),
      App.getVariantRepo db vid = some v → ¬ v.price_cents ≤ 0 →
      App.check_variant_availability db vid q = .ok true →
      50 ≤ (db.carts uid).length →
      (db.carts uid).find? (fun l => l.variantId == vid) = none →
      App.svc_add_item_to_cart db uid vid q = .error .businessLogic) ∧
    (∀ (db : App.AppDB) (uid vid : Nat) (q : Int) (v : App.ProductVariant)
        (l0 : App.CartLine),
      App.getVariantRepo db vid = some v → ¬ v.price_cents ≤ 0 →
      App.check_variant_availability db vid q = .ok true →
      (db.carts uid).find? (fun l => l.variantId == vid) = some l0 →
      q + l0.quantity ≤ 99 →
      ∃ db2 item, App.svc_add_item_to_cart db uid vid q = .ok (db2, item) ∧
        (db2.carts uid).length = (db.carts uid).length) ∧
    (∀ (db : App.AppDB) (uid vid : Nat) (q : Int),
      (db.carts uid).length ≤ 50 →
      ((App.svcAddState db uid vid q).carts uid).length ≤ 50) := by
  refine ⟨?_, ?_, ?_⟩
  · intro db uid vid q v hv hpr hchk hlen hfind
    rw [svc_add_eval2 hv hpr hchk, if_pos ⟨hlen, hfind⟩]
  · intro db uid vid q v l0 hv hpr hchk hfind hcap
    rw [svc_add_eval2 hv hpr hchk, hfind]
    have hc1 : ¬(50 ≤ (db.carts uid).length ∧
        (some l0 : Option App.CartLine) = none) :=
      fun hco => Option.noConfusion hco.2
    rw [if_neg hc1]
    have hc2 : ¬(99 < q + (match (some l0 : Option App.CartLine) with
        | some e => e.quantity
        | none => 0)) := not_lt.mpr hcap
    rw [if_neg hc2]
    refine ⟨(App.repo_add_item db uid vid q).1,
      (App.repo_add_item db uid vid q).2, rfl, ?_⟩
    unfold App.repo_add_item
    rw [hfind]
    simp [List.length_map]
  · intro db uid vid q hlen
    unfold App.svcAddState
    cases h : App.svc_add_item_to_cart db uid vid q with
    | error e => exact hlen
    | ok x =>
      obtain ⟨db2, item⟩ := x
      cases hv : App.getVariantRepo db vid with
      | none =>
        have he : App.svc_add_item_to_cart db uid vid q = .error .validation := by
          unfold App.svc_add_item_to_cart
          rw [hv]
        rw [he] at h
        exact Except.noConfusion h
      | some pv =>
        rw [svc_add_eval hv] at h
        by_cases hpr : pv.price_cents ≤ 0
        · rw [if_pos hpr] at h
          exact Except.noConfusion h
        · rw [if_neg hpr] at h
          cases hchk : App.check_variant_availability db vid q with
          | error e2 =>
            rw [hchk] at h
            exact Except.noConfusion h
          | ok b =>
            rw [hchk] at h
            cases b with
            | false => exact Except.noConfusion h
            | true =>
              by_cases hcond : 50 ≤ (db.carts uid).length ∧
                  (db.carts uid).find? (fun l => l.variantId == vid) = none
              · rw [if_pos hcond] at h
                exact Except.noConfusion h
              · rw [if_neg hcond] at h
                by_cases hcap : 99 < q + (match (db.carts uid).find?
                      (fun l => l.variantId == vid) with
                    | some e => e.quantity
                    | none => 0)
                · rw [if_pos hcap] at h
                  exact Except.noConfusion h
                · rw [if_neg hcap] at h
                  have hpair := Except.ok.inj h
                  rw [show db2 = (App.repo_add_item db uid vid q).1 from by
                    rw [hpair]]
                  unfold App.repo_add_item
                  cases hf : (db.carts uid).find?
                      (fun l => l.variantId == vid) with
                  | some e2 => simpa using hlen
                  | none =>
                    have hlt : ¬ 50 ≤ (db.carts uid).length :=
                      fun hge => hcond ⟨hge, hf⟩
                    simp only [List.length_append]
                    simp
                    omega

/-- C10 witness: with 50 distinct lines in the cart of user 4, adding one
unit of the absent variant 1 is rejected although it is in stock, while
the same add on the store whose first line already holds variant 1 merges
and keeps the cart at 50 lines; the bound 50 is preserved. -/
theorem cart_fifty_line_limit_witness :
    App.svc_add_item_to_cart fullCartAppDB 4 1 1 = .error .businessLogic ∧
    (∃ db2 item, App.svc_add_item_to_cart fullCartMergeAppDB 4 1 1 =
        .ok (db2, item) ∧
      (db2.carts 4).length = (fullCartMergeAppDB.carts 4).length) ∧
    ((App.svcAddState fullCartAppDB 4 1 1).carts 4).length ≤ 50 :=
  ⟨cart_fifty_line_limit.1 fullCartAppDB 4 1 1 ⟨100, 50, 0⟩
      (by decide) (by decide) (by decide) (by decide) (by decide),
   cart_fifty_line_limit.2.1 fullCartMergeAppDB 4 1 1 ⟨100, 50, 0⟩ ⟨0, 1, 1⟩
      (by decide) (by decide) (by decide) (by decide) (by decide),
   cart_fifty_line_limit.2.2 fullCartAppDB 4 1 1 (by decide)⟩

end ECom
